import Mathlib

/-!
# Verification of the DPU node lifecycle controller

A shallow embedding of the DPU node lifecycle reconciler of the
dpu-network-operator repository (`DpuNodeLifecycleController.Reconcile` and its
helpers, plus the shared `GetOrCreateObject` helper from `pkg/utils/utils.go`).

The embedding makes every Kubernetes API call explicit: the outcome of each
call a single reconcile invocation can perform (gets, creates, updates,
deletes, kubeconfig parsing, client construction) is an input, collected in
`ReconcileEnv`.  A reconcile is then a pure function from the configuration and
that environment to a `RecOutcome`: the list of successful cluster mutations it
performed (in order) together with the returned `ctrl.Result` (requeue delay)
and error.
-/

/-- Kubernetes API errors, as far as the reconciler distinguishes them:
`errors.IsNotFound`, `errors.IsAlreadyExists`, and everything else
(transient/server errors). -/
inductive KErr where
  | notFound
  | alreadyExists
  | transient
deriving DecidableEq

/-- Embeds `errors.IsNotFound`. -/
def KErr.isNotFound : KErr → Bool
  | .notFound => true
  | _ => false

/-- Embeds `client.IgnoreNotFound`: drops a not-found error, keeps the rest. -/
def ignoreNotFound (e : KErr) : Option KErr :=
  if e = KErr.notFound then none else some e

/-- The error component of a Go `(value, err)` return modelled as `Except`. -/
def exceptErr {α : Type} : Except KErr α → Option KErr
  | .error e => some e
  | .ok _ => none

/-- Embeds the operator `Config` struct (file `part_000`, lines 42-46); only
the fields the reconciler reads.  `image` and `serviceAccount` flow into the
blocking deployment; `singleClusterDesign` short-circuits tenant-client
construction. -/
structure Config where
  image : String
  serviceAccount : String
  singleClusterDesign : Bool
deriving DecidableEq

/-- The DPU role label key `node-role.kubernetes.io/dpu-worker`. -/
def dpuNodeLabel : String := "node-role.kubernetes.io/dpu-worker"

/-- The name prefix `dpu-drain-blocker-` shared by the blocking deployment and
the PodDisruptionBudget (source constant `deploymentPrefix`). -/
def deploymentNamePre : String := "dpu-drain-blocker-"

/-- The name prefix `dpu-tenant-` of the tenant NodeMaintenance record (source
constant `maintenancePrefix`). -/
def maintenanceNamePre : String := "dpu-tenant-"

/-- `deploymentReplicaNumber = int32(1)`. -/
def deploymentReplicaNumber : Int := 1

/-- `maxUnAvailableDefault = int32(0)`. -/
def maxUnAvailableDefault : Int := 0

/-- Embeds `corev1.Node` as far as the reconciler reads it: name, UID, labels
and `spec.unschedulable`. -/
structure Node where
  name : String
  uid : String
  labels : List (String × String)
  unschedulable : Bool
deriving DecidableEq

/-- Embeds the map lookup `_, hasDpuLabel := node.Labels[dpuNodeLabel]`. -/
def hasDpuLabel (node : Node) : Bool :=
  node.labels.any (fun kv => kv.1 == dpuNodeLabel)

/-- Embeds `intstr.IntOrString` (type tag 0 = Int, 1 = String). -/
structure IntOrString where
  typ : Int
  intVal : Int
  strVal : String
deriving DecidableEq

/-- Embeds `policyv1.PodDisruptionBudgetSpec`: the mutable `maxUnavailable`
pointer, the `minAvailable` pointer (never set by this operator, but part of
the deep-equality comparison), and the selector match labels. -/
structure PDBSpec where
  maxUnavailable : Option IntOrString
  minAvailable : Option IntOrString
  selectorMatchLabels : Option (List (String × String))
deriving DecidableEq

/-- Embeds a `policyv1.PodDisruptionBudget` object: name, namespace, the owner
reference installed by `buildPDB`, and the spec. -/
structure PDB where
  name : String
  ns : String
  ownerName : String
  ownerUID : String
  spec : PDBSpec
deriving DecidableEq

/-- Embeds `appsv1.Deployment` as far as `buildDeployment` populates it. -/
structure Deployment where
  name : String
  ns : String
  appLabel : String
  ownerName : String
  ownerUID : String
  replicas : Int
  image : String
  command : List String
  nodeSelectorHostname : String
  serviceAccount : String
  hostNetwork : Bool
deriving DecidableEq

/-- The NodeMaintenance phase enumeration of the node-maintenance-operator
API; `empty` is the zero value a freshly built CR carries before the remote
operator touches it, and only `succeeded` is ever compared against. -/
inductive MaintenancePhase where
  | empty
  | running
  | succeeded
  | failed
deriving DecidableEq

/-- Embeds `nmoapiv1beta1.NodeMaintenance`: name, namespace, the spec fields
set by `buildNodeMaintenanceCR`, and the externally owned status phase. -/
structure NodeMaintenance where
  name : String
  ns : String
  specNodeName : String
  specReason : String
  statusPhase : MaintenancePhase
deriving DecidableEq

/-- Embeds the `tenant-kubeconfig` secret as far as `getTenantRestClientConfig`
reads it: whether `data["config"]` is present.  Whether the bytes parse into a
REST config is a separate environment outcome (`restConfigParse`). -/
structure TenantSecret where
  hasConfigKey : Bool
deriving DecidableEq

/-- A successful cluster mutation performed during one reconcile, in the order
the reconciler issues them. -/
inductive KAction where
  | createDeployment (name ns : String)
  | createPDB (name ns : String) (spec : PDBSpec)
  | updatePDB (name ns : String) (spec : PDBSpec)
  | createNM (name ns nodeName : String)
  | deleteNM (name ns : String)
deriving DecidableEq

/-- Outcome of one reconcile invocation: the successful mutations in program
order, the `RequeueAfter` of the returned `ctrl.Result` in seconds, and the
returned error. -/
structure RecOutcome where
  actions : List KAction
  requeueAfterSec : Option Nat
  err : Option KErr
deriving DecidableEq

/-- The outcomes of every API call a single reconcile can issue, plus the
lazily initialised shared state consulted on the way (`r.tenantClient`,
`utils.TenantRestConfig`).  A field such as `pdbGet` is the result the
corresponding `Get` would produce if issued during this reconcile. -/
structure ReconcileEnv where
  /-- `r.tenantClient != nil` at entry. -/
  cachedTenantClient : Bool
  /-- `utils.TenantRestConfig != nil` (set by the OVN controller). -/
  tenantRestConfigCached : Bool
  /-- Get of the `tenant-kubeconfig` secret. -/
  secretGet : Except KErr TenantSecret
  /-- `clientcmd.RESTConfigFromKubeConfig` outcome (`none` = success). -/
  restConfigParse : Option KErr
  /-- `client.New` outcome for the tenant cluster (`none` = success). -/
  clientNew : Option KErr
  /-- Get of the reconciled Node. -/
  nodeGet : Except KErr Node
  /-- `utils.GetMatchedTenantNode` outcome (`none` = resolution failed). -/
  resolve : Option String
  /-- Get of the blocking deployment. -/
  depGet : Except KErr Deployment
  /-- Create of the blocking deployment (`none` = success). -/
  depCreate : Option KErr
  /-- Get of the PodDisruptionBudget. -/
  pdbGet : Except KErr PDB
  /-- Create of the PodDisruptionBudget (`none` = success). -/
  pdbCreate : Option KErr
  /-- Update of the PodDisruptionBudget (`none` = success). -/
  pdbUpdate : Option KErr
  /-- Get of the tenant NodeMaintenance record. -/
  nmGet : Except KErr NodeMaintenance
  /-- Create of the tenant NodeMaintenance record (`none` = success). -/
  nmCreate : Option KErr
  /-- Delete of the tenant NodeMaintenance record (`none` = success). -/
  nmDelete : Option KErr

/-- Embeds `utils.GetOrCreateObject` (`pkg/utils/utils.go`, lines 14-32).
Given the outcome of the initial `Get` and of the conditional `Create`, it
returns the object together with a flag recording whether the create path was
taken.  In the Go source the create path returns the *very pointer* `expected`
that the caller passed in (`obj = expected`), which the `true` flag records:
the caller's later mutations of its expected object are visible through the
returned object.  A failed create (including `AlreadyExists` from a
get-or-create race) is returned as a wrapped error; the function does not
re-fetch the existing object. -/
def GetOrCreateObject {α : Type} (getRes : Except KErr α) (createRes : Option KErr)
    (expected : α) : Except KErr (Bool × α) :=
  match getRes with
  | .ok obj => .ok (false, obj)
  | .error e =>
    if e.isNotFound then
      match createRes with
      | some ce => .error ce
      | none => .ok (true, expected)
    else
      .error e

/-- Embeds `buildDeployment` (part_000, lines 211-257). -/
def buildDeployment (cfg : Config) (node : Node) (opNs : String) : Deployment :=
  { name := deploymentNamePre ++ node.name
    ns := opNs
    appLabel := deploymentNamePre ++ node.name
    ownerName := node.name
    ownerUID := node.uid
    replicas := deploymentReplicaNumber
    image := cfg.image
    command := ["/bin/sh", "-ec", "sleep infinity"]
    nodeSelectorHostname := node.name
    serviceAccount := cfg.serviceAccount
    hostNetwork := true }

/-- Embeds `buildPDB` (part_000, lines 183-209): the PDB is built with
`MaxUnavailable = &intstr.IntOrString{IntVal: maxUnAvailableDefault}` (type tag
and string value are zero values), no `minAvailable`, and an `app` selector. -/
def buildPDB (node : Node) (opNs : String) : PDB :=
  { name := deploymentNamePre ++ node.name
    ns := opNs
    ownerName := node.name
    ownerUID := node.uid
    spec :=
      { maxUnavailable := some { typ := 0, intVal := maxUnAvailableDefault, strVal := "" }
        minAvailable := none
        selectorMatchLabels := some [("app", deploymentNamePre ++ node.name)] } }

/-- Embeds `buildNodeMaintenanceCR` (part_000, lines 319-330); the status
phase of a freshly built CR is the zero value. -/
def buildNodeMaintenanceCR (name tenantNodeHostname tenantNs : String) : NodeMaintenance :=
  { name := name
    ns := tenantNs
    specNodeName := tenantNodeHostname
    specReason := "Infra dpu is going to reboot"
    statusPhase := MaintenancePhase.empty }

/-- Embeds `getExpectedMaxUnavailable` (part_000, lines 161-167). -/
def getExpectedMaxUnavailable (allowedToDrain : Bool) : Int :=
  if allowedToDrain then deploymentReplicaNumber else maxUnAvailableDefault

/-- Embeds the statement `expectedPDB.Spec.MaxUnavailable.IntVal = v`
(part_000, line 128): a field update through the `MaxUnavailable` pointer. -/
def setMaxUnavailableIntVal (p : PDB) (v : Int) : PDB :=
  { p with spec :=
      { p.spec with maxUnavailable :=
          match p.spec.maxUnavailable with
          | some i => some { i with intVal := v }
          | none => none } }

/-- Embeds `shouldTenantHostBeDrained` (part_000, lines 259-261). -/
def shouldTenantHostBeDrained (node : Node) : Bool :=
  node.unschedulable

/-- Embeds `ensureBlockingDeploymentExists` (part_000, lines 143-148): a
get-or-create of the built deployment whose returned object is discarded;
only the error propagates.  The action list records a successful create. -/
def ensureBlockingDeploymentExists (cfg : Config) (env : ReconcileEnv) (node : Node)
    (opNs : String) : List KAction × Option KErr :=
  match GetOrCreateObject env.depGet env.depCreate (buildDeployment cfg node opNs) with
  | .error e => ([], some e)
  | .ok (created, _) =>
    (if created then [KAction.createDeployment (deploymentNamePre ++ node.name) opNs] else [],
     none)

/-- Embeds `getOrCreatePDB` (part_000, lines 151-158).  The `Bool` in the
result records whether the create path was taken, in which case the returned
object is the caller's expected object itself (pointer aliasing in the Go
source). -/
def getOrCreatePDB (env : ReconcileEnv) (expectedPDB : PDB) :
    List KAction × Except KErr (Bool × PDB) :=
  match GetOrCreateObject env.pdbGet env.pdbCreate expectedPDB with
  | .error e => ([], .error e)
  | .ok (created, p) =>
    (if created then [KAction.createPDB expectedPDB.name expectedPDB.ns expectedPDB.spec] else [],
     .ok (created, p))

/-- Embeds `ensurePDBSpecIsAsExpected` (part_000, lines 172-181):
`equality.Semantic.DeepEqual` on the full specs first; only on inequality is
`r.Update` issued with the expected spec. -/
def ensurePDBSpecIsAsExpected (env : ReconcileEnv) (pdbSpec expectedSpec : PDBSpec)
    (name opNs : String) : List KAction × Option KErr :=
  if pdbSpec = expectedSpec then
    ([], none)
  else
    match env.pdbUpdate with
    | some e => ([], some e)
    | none => ([KAction.updatePDB name opNs expectedSpec], none)

/-- Embeds `drainTenantNode` (part_000, lines 278-293): get-or-create the
NodeMaintenance CR, then report drained exactly when the observed phase is
`MaintenanceSucceeded`. -/
def drainTenantNode (env : ReconcileEnv) (nmName tenantHostName tenantNs : String) :
    List KAction × Except KErr Bool :=
  match GetOrCreateObject env.nmGet env.nmCreate
      (buildNodeMaintenanceCR nmName tenantHostName tenantNs) with
  | .error e => ([], .error e)
  | .ok (created, nm) =>
    (if created then [KAction.createNM nmName tenantNs tenantHostName] else [],
     .ok (nm.statusPhase = MaintenancePhase.succeeded))

/-- Embeds `unDrainTenantNode` (part_000, lines 298-317): a get of the CR; a
not-found get is success; an existing CR is deleted, a failed delete is an
error; in every non-error case the node counts as in the required state. -/
def unDrainTenantNode (env : ReconcileEnv) (nmName tenantNs : String) :
    List KAction × Except KErr Bool :=
  match env.nmGet with
  | .error e => if e = KErr.notFound then ([], .ok true) else ([], .error e)
  | .ok _ =>
    match env.nmDelete with
    | some e => ([], .error e)
    | none => ([KAction.deleteNM nmName tenantNs], .ok true)

/-- Embeds `ensureNodeDrainState` (part_000, lines 267-274). -/
def ensureNodeDrainState (env : ReconcileEnv) (tenantNode tenantNs : String)
    (shouldBeDrained : Bool) : List KAction × Except KErr Bool :=
  if shouldBeDrained then
    drainTenantNode env (maintenanceNamePre ++ tenantNode) tenantNode tenantNs
  else
    unDrainTenantNode env (maintenanceNamePre ++ tenantNode) tenantNs

/-- Embeds `getTenantRestClientConfig` (part_000, lines 364-391).  `.ok true`
means a non-nil REST config was returned, `.ok false` the `(nil, nil)` return.
Note the source's missing-key branch returns `nil, err` where `err` is
still `nil` from the successful secret get, hence `.ok false`. -/
def getTenantRestClientConfig (env : ReconcileEnv) : Except KErr Bool :=
  if env.tenantRestConfigCached then .ok true
  else
    match env.secretGet with
    | .error e => if e = KErr.notFound then .ok false else .error e
    | .ok s =>
      if s.hasConfigKey then
        match env.restConfigParse with
        | some e => .error e
        | none => .ok true
      else
        .ok false

/-- Embeds `ensureTenantClient` (part_000, lines 333-358).  `.ok true` means a
usable tenant client handle, `.ok false` the `(nil, nil)` "not configured"
return. -/
def ensureTenantClient (cfg : Config) (env : ReconcileEnv) : Except KErr Bool :=
  if env.cachedTenantClient then .ok true
  else if cfg.singleClusterDesign then .ok true
  else
    match getTenantRestClientConfig env with
    | .error e => .error e
    | .ok false => .ok false
    | .ok true =>
      match env.clientNew with
      | some e => .error e
      | none => .ok true

/-- Embeds `DpuNodeLifecycleController.Reconcile` (part_000, lines 72-139).

One Go subtlety is modelled explicitly: when `getOrCreatePDB` took the create
path, the returned `pdb` is the same pointer as `expectedPDB`, so the
mutation `expectedPDB.Spec.MaxUnavailable.IntVal = ...` on line 128 is seen
through `pdb` as well; the spec handed to `ensurePDBSpecIsAsExpected` as the
current one is then the mutated expected spec itself (`created = true`
branch), while a fetched PDB keeps its own spec. -/
def reconcile (cfg : Config) (env : ReconcileEnv) (opNs tenantNs : String) : RecOutcome :=
  match ensureTenantClient cfg env with
  | .error e => ⟨[], none, some e⟩
  | .ok false => ⟨[], none, none⟩
  | .ok true =>
    match env.nodeGet with
    | .error e => ⟨[], none, ignoreNotFound e⟩
    | .ok node =>
      if hasDpuLabel node = false then ⟨[], none, none⟩
      else
        match env.resolve with
        | none => ⟨[], none, none⟩
        | some tenantNode =>
          match ensureBlockingDeploymentExists cfg env node opNs with
          | (acts1, some e) => ⟨acts1, none, some e⟩
          | (acts1, none) =>
            match getOrCreatePDB env (buildPDB node opNs) with
            | (acts2, .error e) => ⟨acts1 ++ acts2, none, some e⟩
            | (acts2, .ok (created, fetched)) =>
              match ensureNodeDrainState env tenantNode tenantNs
                  (shouldTenantHostBeDrained node) with
              | (acts3, .error e) => ⟨acts1 ++ acts2 ++ acts3, none, some e⟩
              | (acts3, .ok tenantInRequiredState) =>
                let expectedPDB2 := setMaxUnavailableIntVal (buildPDB node opNs)
                  (getExpectedMaxUnavailable
                    (tenantInRequiredState && shouldTenantHostBeDrained node))
                let currentSpec := if created then expectedPDB2.spec else fetched.spec
                match ensurePDBSpecIsAsExpected env currentSpec expectedPDB2.spec
                    (buildPDB node opNs).name opNs with
                | (acts4, some e) => ⟨acts1 ++ acts2 ++ acts3 ++ acts4, none, some e⟩
                | (acts4, none) =>
                  if !tenantInRequiredState && shouldTenantHostBeDrained node then
                    ⟨acts1 ++ acts2 ++ acts3 ++ acts4, some 60, none⟩
                  else
                    ⟨acts1 ++ acts2 ++ acts3 ++ acts4, none, none⟩

/-- Remote-maintenance mutations (creation or deletion of the tenant
NodeMaintenance record). -/
def KAction.isNM : KAction → Bool
  | .createNM _ _ _ => true
  | .deleteNM _ _ => true
  | _ => false

/-- Mutations issued by the two ensure-existence steps (blocking deployment
and budget creation). -/
def KAction.isEnsureCreate : KAction → Bool
  | .createDeployment _ _ => true
  | .createPDB _ _ _ => true
  | _ => false

/-- The budget-recomputation write. -/
def KAction.isBudgetUpdate : KAction → Bool
  | .updatePDB _ _ _ => true
  | _ => false

/-- Sample configuration used to evaluate the embedding on concrete inputs. -/
def cfgW : Config := { image := "img", serviceAccount := "sa", singleClusterDesign := false }

/-- A labeled, unschedulable DPU node. -/
def nodeW : Node :=
  { name := "n1", uid := "u1", labels := [(dpuNodeLabel, "")], unschedulable := true }

/-- The same node, schedulable. -/
def nodeWsched : Node := { nodeW with unschedulable := false }

/-- A node without the DPU role label. -/
def nodeWplain : Node := { nodeW with labels := [] }

/-- The NodeMaintenance record the controller would build for tenant host
`w1`. -/
def nmW : NodeMaintenance := buildNodeMaintenanceCR "dpu-tenant-w1" "w1" "tns"

/-- The same record once the remote operator reports the drain succeeded. -/
def nmWsucceeded : NodeMaintenance := { nmW with statusPhase := MaintenancePhase.succeeded }

/-- The same record while the remote drain is still running. -/
def nmWrunning : NodeMaintenance := { nmW with statusPhase := MaintenancePhase.running }

/-- A fully healthy environment: tenant client cached, labeled unschedulable
node, resolver maps to `w1`, blocking deployment and budget already present,
no NodeMaintenance record yet, every write succeeding. -/
def envW : ReconcileEnv :=
  { cachedTenantClient := true
    tenantRestConfigCached := false
    secretGet := .error KErr.notFound
    restConfigParse := none
    clientNew := none
    nodeGet := .ok nodeW
    resolve := some "w1"
    depGet := .ok (buildDeployment cfgW nodeW "ns")
    depCreate := none
    pdbGet := .ok (buildPDB nodeW "ns")
    pdbCreate := none
    pdbUpdate := none
    nmGet := .error KErr.notFound
    nmCreate := none
    nmDelete := none }

/-- An environment whose node (unlabeled) is healthy but whose
tenant-kubeconfig secret get fails transiently. -/
def envC9 : ReconcileEnv :=
  { envW with
    cachedTenantClient := false
    secretGet := .error KErr.transient
    nodeGet := .ok nodeWplain }

/-- An environment in which the budget is absent (so the reconcile creates
it) while the remote maintenance record already reports a succeeded drain of
the unschedulable node's tenant host. -/
def envC3 : ReconcileEnv :=
  { envW with
    pdbGet := .error KErr.notFound
    nmGet := .ok nmWsucceeded }

/-- The healthy environment once the remote maintenance record reports the
drain succeeded (budget still present at 0). -/
def envWdrained : ReconcileEnv := { envW with nmGet := .ok nmWsucceeded }

theorem mem_ensureBlockingDeploymentExists {cfg : Config} {env : ReconcileEnv}
    {node : Node} {opNs : String} {a : KAction}
    (h : a ∈ (ensureBlockingDeploymentExists cfg env node opNs).1) :
    a = KAction.createDeployment (deploymentNamePre ++ node.name) opNs := by
  unfold ensureBlockingDeploymentExists at h
  cases hg : GetOrCreateObject env.depGet env.depCreate (buildDeployment cfg node opNs) with
  | error e => simp [hg] at h
  | ok p =>
    obtain ⟨created, d⟩ := p
    cases created <;> simp [hg] at h
    exact h

theorem mem_getOrCreatePDB {env : ReconcileEnv} {p : PDB} {a : KAction}
    (h : a ∈ (getOrCreatePDB env p).1) :
    a = KAction.createPDB p.name p.ns p.spec := by
  unfold getOrCreatePDB at h
  cases hg : GetOrCreateObject env.pdbGet env.pdbCreate p with
  | error e => simp [hg] at h
  | ok q =>
    obtain ⟨created, d⟩ := q
    cases created <;> simp [hg] at h
    exact h

theorem mem_ensureNodeDrainState {env : ReconcileEnv} {t tenantNs : String} {b : Bool}
    {a : KAction} (h : a ∈ (ensureNodeDrainState env t tenantNs b).1) :
    a = KAction.createNM (maintenanceNamePre ++ t) tenantNs t ∨
    a = KAction.deleteNM (maintenanceNamePre ++ t) tenantNs := by
  unfold ensureNodeDrainState drainTenantNode unDrainTenantNode at h
  cases b
  · simp only [Bool.false_eq_true, if_false] at h
    cases hg : env.nmGet with
    | error e =>
      rw [hg] at h
      by_cases he : e = KErr.notFound <;> simp [he] at h
    | ok nm =>
      rw [hg] at h
      cases hd : env.nmDelete <;> simp [hd] at h
      exact Or.inr h
  · simp only [if_true] at h
    cases hg : GetOrCreateObject env.nmGet env.nmCreate
        (buildNodeMaintenanceCR (maintenanceNamePre ++ t) t tenantNs) with
    | error e => simp [hg] at h
    | ok q =>
      obtain ⟨created, nm⟩ := q
      cases created <;> simp [hg] at h
      exact Or.inl h

theorem mem_ensurePDBSpecIsAsExpected {env : ReconcileEnv} {cur expd : PDBSpec}
    {name opNs : String} {a : KAction}
    (h : a ∈ (ensurePDBSpecIsAsExpected env cur expd name opNs).1) :
    a = KAction.updatePDB name opNs expd := by
  unfold ensurePDBSpecIsAsExpected at h
  by_cases he : cur = expd
  · simp [he] at h
  · cases hu : env.pdbUpdate <;> simp [he, hu] at h
    exact h

/-- C4: on the drain path (`desiredDrained` true) the driver get-or-creates
the remote maintenance record and reports `actuallyDrained = true` exactly
when the observed record's phase is the succeeded phase; a record observed in
any other phase, or one just created (phase unset), yields `false` with no
error. -/
theorem C4_drain_reports_succeeded_phase (env : ReconcileEnv) (tenantNode tenantNs : String) :
    ((ensureNodeDrainState env tenantNode tenantNs true).2 = .ok true ↔
      ∃ nm, env.nmGet = .ok nm ∧ nm.statusPhase = MaintenancePhase.succeeded) ∧
    (∀ nm, env.nmGet = .ok nm → nm.statusPhase ≠ MaintenancePhase.succeeded →
      ensureNodeDrainState env tenantNode tenantNs true = ([], .ok false)) ∧
    (env.nmGet = .error KErr.notFound → env.nmCreate = none →
      ensureNodeDrainState env tenantNode tenantNs true =
        ([KAction.createNM (maintenanceNamePre ++ tenantNode) tenantNs tenantNode],
         .ok false)) := by
  refine ⟨⟨?_, ?_⟩, ?_, ?_⟩
  · intro h
    cases hg : env.nmGet with
    | error e =>
      cases e <;> cases hc : env.nmCreate <;>
        simp [ensureNodeDrainState, drainTenantNode, GetOrCreateObject, KErr.isNotFound,
          buildNodeMaintenanceCR, hg, hc] at h
    | ok nm =>
      simp [ensureNodeDrainState, drainTenantNode, GetOrCreateObject, hg] at h
      exact ⟨nm, rfl, h⟩
  · rintro ⟨nm, hg, hp⟩
    simp [ensureNodeDrainState, drainTenantNode, GetOrCreateObject, hg, hp]
  · intro nm hg hp
    simp [ensureNodeDrainState, drainTenantNode, GetOrCreateObject, hg, hp]
  · intro hg hc
    simp [ensureNodeDrainState, drainTenantNode, GetOrCreateObject, KErr.isNotFound,
      buildNodeMaintenanceCR, hg, hc]

/-- Witness for C4 at concrete inputs: an in-progress record yields
`actuallyDrained = false` with no error and no mutation. -/
theorem C4_drain_reports_succeeded_phase_witness :
    ensureNodeDrainState { envW with nmGet := .ok nmWrunning } "w1" "tns" true =
      ([], .ok false) :=
  (C4_drain_reports_succeeded_phase { envW with nmGet := .ok nmWrunning } "w1" "tns").2.1
    nmWrunning rfl (by decide)

/-- C5: on the undrain path (`desiredDrained` false) the driver reports
`actuallyDrained = true` in the same reconcile whatever the record's prior
phase: an absent record (not-found get) is success without a delete, an
existing record is deleted and counted as success; only a non-not-found get
error or a delete error yields `false` with an error. -/
theorem C5_undrain_fire_and_forget (env : ReconcileEnv) (tenantNode tenantNs : String) :
    (env.nmGet = .error KErr.notFound →
      ensureNodeDrainState env tenantNode tenantNs false = ([], .ok true)) ∧
    (∀ nm, env.nmGet = .ok nm → env.nmDelete = none →
      ensureNodeDrainState env tenantNode tenantNs false =
        ([KAction.deleteNM (maintenanceNamePre ++ tenantNode) tenantNs], .ok true)) ∧
    (∀ e, env.nmGet = .error e → e ≠ KErr.notFound →
      ensureNodeDrainState env tenantNode tenantNs false = ([], .error e)) ∧
    (∀ nm e, env.nmGet = .ok nm → env.nmDelete = some e →
      ensureNodeDrainState env tenantNode tenantNs false = ([], .error e)) := by
  refine ⟨?_, ?_, ?_, ?_⟩
  · intro hg
    simp [ensureNodeDrainState, unDrainTenantNode, hg]
  · intro nm hg hd
    simp [ensureNodeDrainState, unDrainTenantNode, hg, hd]
  · intro e hg he
    simp [ensureNodeDrainState, unDrainTenantNode, hg, he]
  · intro nm e hg hd
    simp [ensureNodeDrainState, unDrainTenantNode, hg, hd]

/-- Witness for C5 at concrete inputs: an existing succeeded record is
deleted and the node counts as in the required state in the same call. -/
theorem C5_undrain_fire_and_forget_witness :
    ensureNodeDrainState { envW with nmGet := .ok nmWsucceeded } "w1" "tns" false =
      ([KAction.deleteNM "dpu-tenant-w1" "tns"], .ok true) :=
  (C5_undrain_fire_and_forget { envW with nmGet := .ok nmWsucceeded } "w1" "tns").2.1
    nmWsucceeded rfl rfl

/-- C6 counterexample: in a get-or-create race (the record absent at the get,
the create failing with already-exists) `GetOrCreateObject` returns the
wrapped already-exists error; it does not fetch and return the existing
record, and `drainTenantNode` therefore fails this reconcile. -/
theorem C6_race_counterexample :
    GetOrCreateObject (α := NodeMaintenance) (Except.error KErr.notFound)
        (some KErr.alreadyExists) nmW = Except.error KErr.alreadyExists ∧
    drainTenantNode { envW with nmCreate := some KErr.alreadyExists } "dpu-tenant-w1" "w1" "tns" =
      ([], .error KErr.alreadyExists) := by
  exact ⟨rfl, rfl⟩

/-- C6 amended: when the get observes the record absent and the create then
fails (in particular with already-exists, the get-or-create race), the helper
returns that create error — the existing record is not fetched — and the
drain path propagates the error, so the reconcile fails and is retried. -/
theorem C6_race_returns_error {α : Type} (createErr : KErr) (expected : α)
    (env : ReconcileEnv) (nmName tenantHostName tenantNs : String) :
    GetOrCreateObject (Except.error KErr.notFound) (some createErr) expected =
      Except.error createErr ∧
    (env.nmGet = Except.error KErr.notFound → env.nmCreate = some createErr →
      drainTenantNode env nmName tenantHostName tenantNs = ([], .error createErr)) := by
  constructor
  · simp [GetOrCreateObject, KErr.isNotFound]
  · intro hg hc
    simp [drainTenantNode, GetOrCreateObject, KErr.isNotFound, hg, hc]

/-- Witness for C6 amended at concrete inputs. -/
theorem C6_race_returns_error_witness :
    drainTenantNode { envW with nmCreate := some KErr.alreadyExists }
        "dpu-tenant-w1" "w1" "tns" = ([], .error KErr.alreadyExists) :=
  (C6_race_returns_error KErr.alreadyExists nmW
    { envW with nmCreate := some KErr.alreadyExists } "dpu-tenant-w1" "w1" "tns").2 rfl rfl

/-- C8: with no cached tenant client, single-cluster mode off, no cached
tenant REST config and the tenant-kubeconfig secret absent, the reconcile
returns success with no error, no requeue and no mutation — whatever the rest
of the environment (in particular the node is never read: `nodeGet` is
unconstrained). -/
theorem C8_not_configured_noop (cfg : Config) (env : ReconcileEnv) (opNs tenantNs : String)
    (h1 : env.cachedTenantClient = false) (h2 : cfg.singleClusterDesign = false)
    (h3 : env.tenantRestConfigCached = false)
    (h4 : env.secretGet = .error KErr.notFound) :
    reconcile cfg env opNs tenantNs = ⟨[], none, none⟩ := by
  have htc : ensureTenantClient cfg env = .ok false := by
    simp [ensureTenantClient, getTenantRestClientConfig, h1, h2, h3, h4]
  simp [reconcile, htc]

/-- Witness for C8 at concrete inputs. -/
theorem C8_not_configured_noop_witness :
    reconcile cfgW { envW with cachedTenantClient := false } "ns" "tns" = ⟨[], none, none⟩ :=
  C8_not_configured_noop cfgW { envW with cachedTenantClient := false } "ns" "tns"
    rfl rfl rfl rfl

/-- C10: a tenant-kubeconfig secret whose data lacks the `config` key makes
`getTenantRestClientConfig` return a nil config with a nil error (the source
returns `nil, err` with `err` still nil after the successful get), so the
reconcile treats the malformed secret exactly like an absent one: success, no
error, no requeue, no mutation. -/
theorem C10_malformed_secret_like_absent (cfg : Config) (env : ReconcileEnv)
    (opNs tenantNs : String) (s : TenantSecret)
    (h3 : env.tenantRestConfigCached = false) (hs : env.secretGet = .ok s)
    (hk : s.hasConfigKey = false) :
    getTenantRestClientConfig env = .ok false ∧
    (env.cachedTenantClient = false → cfg.singleClusterDesign = false →
      reconcile cfg env opNs tenantNs = ⟨[], none, none⟩ ∧
      reconcile cfg { env with secretGet := .error KErr.notFound } opNs tenantNs =
        ⟨[], none, none⟩) := by
  have hcfg : getTenantRestClientConfig env = .ok false := by
    simp [getTenantRestClientConfig, h3, hs, hk]
  refine ⟨hcfg, ?_⟩
  intro h1 h2
  constructor
  · have htc : ensureTenantClient cfg env = .ok false := by
      simp [ensureTenantClient, h1, h2, hcfg]
    simp [reconcile, htc]
  · exact C8_not_configured_noop cfg { env with secretGet := .error KErr.notFound }
      opNs tenantNs h1 h2 h3 rfl

/-- Witness for C10 at concrete inputs. -/
theorem C10_malformed_secret_like_absent_witness :
    reconcile cfgW { envW with cachedTenantClient := false, secretGet := .ok ⟨false⟩ }
        "ns" "tns" = ⟨[], none, none⟩ :=
  (((C10_malformed_secret_like_absent cfgW
      { envW with cachedTenantClient := false, secretGet := .ok ⟨false⟩ } "ns" "tns"
      ⟨false⟩ rfl rfl rfl).2 rfl rfl)).1

theorem reconcile_eq_of_tcError {cfg : Config} {env : ReconcileEnv} {opNs tenantNs : String}
    {e : KErr} (htc : ensureTenantClient cfg env = .error e) :
    reconcile cfg env opNs tenantNs = ⟨[], none, some e⟩ := by
  simp [reconcile, htc]

theorem reconcile_eq_of_notConfigured {cfg : Config} {env : ReconcileEnv}
    {opNs tenantNs : String} (htc : ensureTenantClient cfg env = .ok false) :
    reconcile cfg env opNs tenantNs = ⟨[], none, none⟩ := by
  simp [reconcile, htc]

theorem reconcile_eq_of_nodeError {cfg : Config} {env : ReconcileEnv} {opNs tenantNs : String}
    {e : KErr} (htc : ensureTenantClient cfg env = .ok true)
    (hn : env.nodeGet = .error e) :
    reconcile cfg env opNs tenantNs = ⟨[], none, ignoreNotFound e⟩ := by
  simp [reconcile, htc, hn]

theorem reconcile_eq_of_unlabeled {cfg : Config} {env : ReconcileEnv} {opNs tenantNs : String}
    {node : Node} (htc : ensureTenantClient cfg env = .ok true)
    (hn : env.nodeGet = .ok node) (hl : hasDpuLabel node = false) :
    reconcile cfg env opNs tenantNs = ⟨[], none, none⟩ := by
  simp [reconcile, htc, hn, hl]

theorem reconcile_eq_of_unresolved {cfg : Config} {env : ReconcileEnv} {opNs tenantNs : String}
    {node : Node} (htc : ensureTenantClient cfg env = .ok true)
    (hn : env.nodeGet = .ok node) (hl : hasDpuLabel node = true)
    (hres : env.resolve = none) :
    reconcile cfg env opNs tenantNs = ⟨[], none, none⟩ := by
  simp [reconcile, htc, hn, hl, hres]

theorem reconcile_eq_of_depError {cfg : Config} {env : ReconcileEnv} {opNs tenantNs : String}
    {node : Node} {t : String} {acts1 : List KAction} {e : KErr}
    (htc : ensureTenantClient cfg env = .ok true)
    (hn : env.nodeGet = .ok node) (hl : hasDpuLabel node = true)
    (hres : env.resolve = some t)
    (hdep : ensureBlockingDeploymentExists cfg env node opNs = (acts1, some e)) :
    reconcile cfg env opNs tenantNs = ⟨acts1, none, some e⟩ := by
  simp [reconcile, htc, hn, hl, hres, hdep]

theorem reconcile_eq_of_pdbError {cfg : Config} {env : ReconcileEnv} {opNs tenantNs : String}
    {node : Node} {t : String} {acts1 acts2 : List KAction} {e : KErr}
    (htc : ensureTenantClient cfg env = .ok true)
    (hn : env.nodeGet = .ok node) (hl : hasDpuLabel node = true)
    (hres : env.resolve = some t)
    (hdep : ensureBlockingDeploymentExists cfg env node opNs = (acts1, none))
    (hpdb : getOrCreatePDB env (buildPDB node opNs) = (acts2, .error e)) :
    reconcile cfg env opNs tenantNs = ⟨acts1 ++ acts2, none, some e⟩ := by
  simp [reconcile, htc, hn, hl, hres, hdep, hpdb]

theorem reconcile_eq_of_drainError {cfg : Config} {env : ReconcileEnv} {opNs tenantNs : String}
    {node : Node} {t : String} {acts1 acts2 acts3 : List KAction} {e : KErr}
    {created : Bool} {fetched : PDB}
    (htc : ensureTenantClient cfg env = .ok true)
    (hn : env.nodeGet = .ok node) (hl : hasDpuLabel node = true)
    (hres : env.resolve = some t)
    (hdep : ensureBlockingDeploymentExists cfg env node opNs = (acts1, none))
    (hpdb : getOrCreatePDB env (buildPDB node opNs) = (acts2, .ok (created, fetched)))
    (hds : ensureNodeDrainState env t tenantNs (shouldTenantHostBeDrained node) =
      (acts3, .error e)) :
    reconcile cfg env opNs tenantNs = ⟨acts1 ++ acts2 ++ acts3, none, some e⟩ := by
  simp [reconcile, htc, hn, hl, hres, hdep, hpdb, hds]

theorem reconcile_eq_of_ensureError {cfg : Config} {env : ReconcileEnv} {opNs tenantNs : String}
    {node : Node} {t : String} {acts1 acts2 acts3 acts4 : List KAction} {e : KErr}
    {created : Bool} {fetched : PDB} {b : Bool}
    (htc : ensureTenantClient cfg env = .ok true)
    (hn : env.nodeGet = .ok node) (hl : hasDpuLabel node = true)
    (hres : env.resolve = some t)
    (hdep : ensureBlockingDeploymentExists cfg env node opNs = (acts1, none))
    (hpdb : getOrCreatePDB env (buildPDB node opNs) = (acts2, .ok (created, fetched)))
    (hds : ensureNodeDrainState env t tenantNs (shouldTenantHostBeDrained node) =
      (acts3, .ok b))
    (hens : ensurePDBSpecIsAsExpected env
        (if created then
          (setMaxUnavailableIntVal (buildPDB node opNs)
            (getExpectedMaxUnavailable (b && shouldTenantHostBeDrained node))).spec
         else fetched.spec)
        (setMaxUnavailableIntVal (buildPDB node opNs)
          (getExpectedMaxUnavailable (b && shouldTenantHostBeDrained node))).spec
        (buildPDB node opNs).name opNs = (acts4, some e)) :
    reconcile cfg env opNs tenantNs = ⟨acts1 ++ acts2 ++ acts3 ++ acts4, none, some e⟩ := by
  simp only [reconcile, htc, hn, hl, hres, hdep, hpdb, hds]
  simp [hens]

theorem reconcile_eq_of_success {cfg : Config} {env : ReconcileEnv} {opNs tenantNs : String}
    {node : Node} {t : String} {acts1 acts2 acts3 acts4 : List KAction}
    {created : Bool} {fetched : PDB} {b : Bool}
    (htc : ensureTenantClient cfg env = .ok true)
    (hn : env.nodeGet = .ok node) (hl : hasDpuLabel node = true)
    (hres : env.resolve = some t)
    (hdep : ensureBlockingDeploymentExists cfg env node opNs = (acts1, none))
    (hpdb : getOrCreatePDB env (buildPDB node opNs) = (acts2, .ok (created, fetched)))
    (hds : ensureNodeDrainState env t tenantNs (shouldTenantHostBeDrained node) =
      (acts3, .ok b))
    (hens : ensurePDBSpecIsAsExpected env
        (if created then
          (setMaxUnavailableIntVal (buildPDB node opNs)
            (getExpectedMaxUnavailable (b && shouldTenantHostBeDrained node))).spec
         else fetched.spec)
        (setMaxUnavailableIntVal (buildPDB node opNs)
          (getExpectedMaxUnavailable (b && shouldTenantHostBeDrained node))).spec
        (buildPDB node opNs).name opNs = (acts4, none)) :
    reconcile cfg env opNs tenantNs =
      ⟨acts1 ++ acts2 ++ acts3 ++ acts4,
       if !b && shouldTenantHostBeDrained node then some 60 else none, none⟩ := by
  simp only [reconcile, htc, hn, hl, hres, hdep, hpdb, hds]
  simp [hens]
  by_cases hc : b = false ∧ shouldTenantHostBeDrained node = true <;> simp [hc]

/-- C9 counterexample: an input state with an unlabeled node in the store but
a transient error on the tenant-kubeconfig secret get makes the reconcile
return an error — the claim's "no error ... for any input state" fails (the
tenant-client step runs, and can fail, before the label check). -/
theorem C9_unlabeled_error_counterexample :
    reconcile cfgW envC9 "ns" "tns" = ⟨[], none, some KErr.transient⟩ := by
  exact reconcile_eq_of_tcError rfl

/-- C9 amended: a reconcile of a Node lacking the DPU-role label creates,
updates and deletes no objects and returns no requeue, for any input state;
it returns no error except when obtaining the tenant client fails (a step
that runs before the node is read), in which case that error is returned. -/
theorem C9_unlabeled_noop (cfg : Config) (env : ReconcileEnv) (opNs tenantNs : String)
    (node : Node) (hn : env.nodeGet = .ok node) (hl : hasDpuLabel node = false) :
    (reconcile cfg env opNs tenantNs).actions = [] ∧
    (reconcile cfg env opNs tenantNs).requeueAfterSec = none ∧
    (reconcile cfg env opNs tenantNs).err = exceptErr (ensureTenantClient cfg env) := by
  cases htc : ensureTenantClient cfg env with
  | error e =>
    have hrec : reconcile cfg env opNs tenantNs = ⟨[], none, some e⟩ :=
      reconcile_eq_of_tcError htc
    simp [hrec, htc, exceptErr]
  | ok b =>
    cases b
    · have hrec : reconcile cfg env opNs tenantNs = ⟨[], none, none⟩ :=
        reconcile_eq_of_notConfigured htc
      simp [hrec, htc, exceptErr]
    · have hrec : reconcile cfg env opNs tenantNs = ⟨[], none, none⟩ :=
        reconcile_eq_of_unlabeled htc hn hl
      simp [hrec, htc, exceptErr]

/-- Witness for C9 amended at concrete inputs: with a healthy environment and
an unlabeled node, the reconcile mutates nothing and returns no error and no
requeue. -/
theorem C9_unlabeled_noop_witness :
    (reconcile cfgW { envW with nodeGet := .ok nodeWplain } "ns" "tns").actions = [] ∧
    (reconcile cfgW { envW with nodeGet := .ok nodeWplain } "ns" "tns").requeueAfterSec = none ∧
    (reconcile cfgW { envW with nodeGet := .ok nodeWplain } "ns" "tns").err =
      exceptErr (ensureTenantClient cfgW { envW with nodeGet := .ok nodeWplain }) :=
  C9_unlabeled_noop cfgW { envW with nodeGet := .ok nodeWplain } "ns" "tns" nodeWplain
    rfl (by decide)

/-- C7: in every successful reconcile that processed a labeled, resolvable
DPU node, the returned result carries a requeue delay of exactly one minute
precisely when the node is unschedulable (drain desired) and the remote
driver reported the tenant host not yet drained; in every other successful
case the result carries no requeue. -/
theorem C7_requeue_one_minute_iff_pending (cfg : Config) (env : ReconcileEnv)
    (opNs tenantNs : String) (node : Node) (t : String)
    (htc : ensureTenantClient cfg env = .ok true)
    (hn : env.nodeGet = .ok node) (hl : hasDpuLabel node = true)
    (hres : env.resolve = some t)
    (herr : (reconcile cfg env opNs tenantNs).err = none) :
    ∃ b, (ensureNodeDrainState env t tenantNs (shouldTenantHostBeDrained node)).2 = .ok b ∧
      (reconcile cfg env opNs tenantNs).requeueAfterSec =
        (if !b && shouldTenantHostBeDrained node then some 60 else none) := by
  cases hdep : ensureBlockingDeploymentExists cfg env node opNs with
  | mk acts1 de =>
    cases de with
    | some e => rw [reconcile_eq_of_depError htc hn hl hres hdep] at herr; exact absurd herr (by simp)
    | none =>
      cases hpdb : getOrCreatePDB env (buildPDB node opNs) with
      | mk acts2 pr =>
        cases pr with
        | error e =>
          rw [reconcile_eq_of_pdbError htc hn hl hres hdep hpdb] at herr
          exact absurd herr (by simp)
        | ok cp =>
          obtain ⟨created, fetched⟩ := cp
          cases hds : ensureNodeDrainState env t tenantNs (shouldTenantHostBeDrained node) with
          | mk acts3 dr =>
            cases dr with
            | error e =>
              rw [reconcile_eq_of_drainError htc hn hl hres hdep hpdb hds] at herr
              exact absurd herr (by simp)
            | ok b =>
              cases hens : ensurePDBSpecIsAsExpected env
                  (if created then
                    (setMaxUnavailableIntVal (buildPDB node opNs)
                      (getExpectedMaxUnavailable (b && shouldTenantHostBeDrained node))).spec
                   else fetched.spec)
                  (setMaxUnavailableIntVal (buildPDB node opNs)
                    (getExpectedMaxUnavailable (b && shouldTenantHostBeDrained node))).spec
                  (buildPDB node opNs).name opNs with
              | mk acts4 ee =>
                cases ee with
                | some e =>
                  rw [reconcile_eq_of_ensureError htc hn hl hres hdep hpdb hds hens] at herr
                  exact absurd herr (by simp)
                | none =>
                  refine ⟨b, by simp [hds], ?_⟩
                  rw [reconcile_eq_of_success htc hn hl hres hdep hpdb hds hens]

/-- Witness for C7 at concrete inputs: drain desired, record just created, so
the result requeues after one minute. -/
theorem C7_requeue_one_minute_iff_pending_witness :
    ∃ b, (ensureNodeDrainState envW "w1" "tns" (shouldTenantHostBeDrained nodeW)).2 = .ok b ∧
      (reconcile cfgW envW "ns" "tns").requeueAfterSec =
        (if !b && shouldTenantHostBeDrained nodeW then some 60 else none) :=
  C7_requeue_one_minute_iff_pending cfgW envW "ns" "tns" nodeW "w1"
    rfl rfl (by decide) rfl (by decide)

/-- C3 counterexample: with the budget absent and the remote record already
succeeded for the unschedulable node, the reconcile reaches the budget
recomputation with a current (just created) spec of `maxUnavailable 0` that
differs from the desired spec (`maxUnavailable 1`), yet issues no update: the
created object and the desired object are the same Go pointer, so the
deep-equality check compares the desired spec with itself.  The trace holds
only the creation at 0 and the reconcile ends without error and without
requeue. -/
theorem C3_created_budget_never_updated_counterexample :
    (ensureNodeDrainState envC3 "w1" "tns" (shouldTenantHostBeDrained nodeW)).2 = .ok true ∧
    (setMaxUnavailableIntVal (buildPDB nodeW "ns") (getExpectedMaxUnavailable true)).spec ≠
      (buildPDB nodeW "ns").spec ∧
    reconcile cfgW envC3 "ns" "tns" =
      ⟨[KAction.createPDB "dpu-drain-blocker-n1" "ns" (buildPDB nodeW "ns").spec],
       none, none⟩ := by
  refine ⟨rfl, by decide, by decide⟩

/-- C3 amended: in every reconcile that reaches the budget-recomputation
step, the desired `maxUnavailable` is 1 if `(actuallyDrained &&
desiredDrained)` else 0; when the budget already existed, it is updated
exactly when its fetched full spec differs (by deep equality) from the
desired spec, and no write is issued when they are deeply equal; when the
budget was created earlier in the same reconcile, no update is issued in that
reconcile at all (the created object aliases the desired object, so the
deep-equality check always passes). -/
theorem C3_pdb_update_iff_fetched_spec_differs (cfg : Config) (env : ReconcileEnv)
    (opNs tenantNs : String) (node : Node) (t : String) (b : Bool)
    (htc : ensureTenantClient cfg env = .ok true)
    (hn : env.nodeGet = .ok node) (hl : hasDpuLabel node = true)
    (hres : env.resolve = some t)
    (hdep : (ensureBlockingDeploymentExists cfg env node opNs).2 = none)
    (hds : (ensureNodeDrainState env t tenantNs (shouldTenantHostBeDrained node)).2 = .ok b)
    (hupd : env.pdbUpdate = none) :
    (setMaxUnavailableIntVal (buildPDB node opNs)
        (getExpectedMaxUnavailable (b && shouldTenantHostBeDrained node))).spec.maxUnavailable =
      some ⟨0, getExpectedMaxUnavailable (b && shouldTenantHostBeDrained node), ""⟩ ∧
    (∀ q, env.pdbGet = .ok q →
      (KAction.updatePDB (buildPDB node opNs).name opNs
          (setMaxUnavailableIntVal (buildPDB node opNs)
            (getExpectedMaxUnavailable (b && shouldTenantHostBeDrained node))).spec ∈
        (reconcile cfg env opNs tenantNs).actions ↔
       q.spec ≠ (setMaxUnavailableIntVal (buildPDB node opNs)
          (getExpectedMaxUnavailable (b && shouldTenantHostBeDrained node))).spec)) ∧
    (env.pdbGet = .error KErr.notFound → env.pdbCreate = none →
      ∀ n2 ns2 s2, KAction.updatePDB n2 ns2 s2 ∉ (reconcile cfg env opNs tenantNs).actions) := by
  obtain ⟨acts1, hdep1⟩ : ∃ a, ensureBlockingDeploymentExists cfg env node opNs = (a, none) := by
    cases hd : ensureBlockingDeploymentExists cfg env node opNs with
    | mk a d =>
      cases d with
      | some e => rw [hd] at hdep; simp at hdep
      | none => exact ⟨a, rfl⟩
  obtain ⟨acts3, hds1⟩ :
      ∃ a, ensureNodeDrainState env t tenantNs (shouldTenantHostBeDrained node) =
        (a, .ok b) := by
    cases hd : ensureNodeDrainState env t tenantNs (shouldTenantHostBeDrained node) with
    | mk a d =>
      rw [hd] at hds
      exact ⟨a, by rw [show d = Except.ok b from hds]⟩
  refine ⟨by simp [setMaxUnavailableIntVal, buildPDB], ?_, ?_⟩
  · intro q hq
    have hpdb1 : getOrCreatePDB env (buildPDB node opNs) = ([], .ok (false, q)) := by
      simp [getOrCreatePDB, GetOrCreateObject, hq]
    by_cases hqe : q.spec = (setMaxUnavailableIntVal (buildPDB node opNs)
        (getExpectedMaxUnavailable (b && shouldTenantHostBeDrained node))).spec
    · have hens1 : ensurePDBSpecIsAsExpected env
          (if (false : Bool) then
            (setMaxUnavailableIntVal (buildPDB node opNs)
              (getExpectedMaxUnavailable (b && shouldTenantHostBeDrained node))).spec
           else q.spec)
          (setMaxUnavailableIntVal (buildPDB node opNs)
            (getExpectedMaxUnavailable (b && shouldTenantHostBeDrained node))).spec
          (buildPDB node opNs).name opNs = ([], none) := by
        simp [ensurePDBSpecIsAsExpected, hqe]
      have hrec := reconcile_eq_of_success htc hn hl hres hdep1 hpdb1 hds1 hens1
      rw [hrec]
      simp only [List.append_nil, List.nil_append]
      constructor
      · intro hmem
        rcases List.mem_append.mp hmem with h | h
        · have := mem_ensureBlockingDeploymentExists (by rw [hdep1]; exact h)
          simp at this
        · have := mem_ensureNodeDrainState (by rw [hds1]; exact h)
          simp at this
      · intro hne
        exact absurd hqe hne
    · have hens1 : ensurePDBSpecIsAsExpected env
          (if (false : Bool) then
            (setMaxUnavailableIntVal (buildPDB node opNs)
              (getExpectedMaxUnavailable (b && shouldTenantHostBeDrained node))).spec
           else q.spec)
          (setMaxUnavailableIntVal (buildPDB node opNs)
            (getExpectedMaxUnavailable (b && shouldTenantHostBeDrained node))).spec
          (buildPDB node opNs).name opNs =
          ([KAction.updatePDB (buildPDB node opNs).name opNs
             (setMaxUnavailableIntVal (buildPDB node opNs)
               (getExpectedMaxUnavailable (b && shouldTenantHostBeDrained node))).spec],
           none) := by
        simp [ensurePDBSpecIsAsExpected, hqe, hupd]
      have hrec := reconcile_eq_of_success htc hn hl hres hdep1 hpdb1 hds1 hens1
      rw [hrec]
      simp only [List.append_nil, List.nil_append]
      constructor
      · intro _
        exact hqe
      · intro _
        simp
  · intro hq hc n2 ns2 s2 hmem
    have hpdb1 : getOrCreatePDB env (buildPDB node opNs) =
        ([KAction.createPDB (buildPDB node opNs).name (buildPDB node opNs).ns
           (buildPDB node opNs).spec],
         .ok (true, buildPDB node opNs)) := by
      simp [getOrCreatePDB, GetOrCreateObject, KErr.isNotFound, hq, hc]
    have hens1 : ensurePDBSpecIsAsExpected env
        (if (true : Bool) then
          (setMaxUnavailableIntVal (buildPDB node opNs)
            (getExpectedMaxUnavailable (b && shouldTenantHostBeDrained node))).spec
         else (buildPDB node opNs).spec)
        (setMaxUnavailableIntVal (buildPDB node opNs)
          (getExpectedMaxUnavailable (b && shouldTenantHostBeDrained node))).spec
        (buildPDB node opNs).name opNs = ([], none) := by
      simp [ensurePDBSpecIsAsExpected]
    have hrec := reconcile_eq_of_success htc hn hl hres hdep1 hpdb1 hds1 hens1
    rw [hrec] at hmem
    simp only [List.append_nil, List.mem_append, List.mem_singleton] at hmem
    rcases hmem with (h | h) | h
    · have := mem_ensureBlockingDeploymentExists (by rw [hdep1]; exact h)
      simp at this
    · simp at h
    · have := mem_ensureNodeDrainState (by rw [hds1]; exact h)
      simp at this

/-- Witness for C3 amended at concrete inputs: the budget exists at 0, the
remote record reports succeeded for the unschedulable node, and the update
is issued exactly because the fetched spec differs from the desired one. -/
theorem C3_pdb_update_iff_fetched_spec_differs_witness :
    KAction.updatePDB (buildPDB nodeW "ns").name "ns"
        (setMaxUnavailableIntVal (buildPDB nodeW "ns")
          (getExpectedMaxUnavailable (true && shouldTenantHostBeDrained nodeW))).spec ∈
      (reconcile cfgW envWdrained "ns" "tns").actions ↔
    (buildPDB nodeW "ns").spec ≠
      (setMaxUnavailableIntVal (buildPDB nodeW "ns")
        (getExpectedMaxUnavailable (true && shouldTenantHostBeDrained nodeW))).spec :=
  (C3_pdb_update_iff_fetched_spec_differs cfgW envWdrained "ns" "tns" nodeW "w1" true
    rfl rfl (by decide) rfl rfl rfl rfl).2.1 (buildPDB nodeW "ns") rfl

theorem reconcile_mem_characterization {cfg : Config} {env : ReconcileEnv}
    {opNs tenantNs : String} {a : KAction}
    (hmem : a ∈ (reconcile cfg env opNs tenantNs).actions) :
    ∃ node t, env.nodeGet = .ok node ∧ hasDpuLabel node = true ∧ env.resolve = some t ∧
      (a = KAction.createDeployment (deploymentNamePre ++ node.name) opNs ∨
       a = KAction.createPDB (buildPDB node opNs).name (buildPDB node opNs).ns
         (buildPDB node opNs).spec ∨
       ((ensureBlockingDeploymentExists cfg env node opNs).2 = none ∧
        (∃ cf, (getOrCreatePDB env (buildPDB node opNs)).2 = .ok cf) ∧
        (a = KAction.createNM (maintenanceNamePre ++ t) tenantNs t ∨
         a = KAction.deleteNM (maintenanceNamePre ++ t) tenantNs)) ∨
       (∃ b, (ensureNodeDrainState env t tenantNs (shouldTenantHostBeDrained node)).2 = .ok b ∧
        a = KAction.updatePDB (buildPDB node opNs).name opNs
          (setMaxUnavailableIntVal (buildPDB node opNs)
            (getExpectedMaxUnavailable (b && shouldTenantHostBeDrained node))).spec)) := by
  cases htc : ensureTenantClient cfg env with
  | error e => rw [reconcile_eq_of_tcError htc] at hmem; simp at hmem
  | ok bb =>
    cases bb with
    | false => rw [reconcile_eq_of_notConfigured htc] at hmem; simp at hmem
    | true =>
      cases hn : env.nodeGet with
      | error e => rw [reconcile_eq_of_nodeError htc hn] at hmem; simp at hmem
      | ok node =>
        cases hlb : hasDpuLabel node with
        | false => rw [reconcile_eq_of_unlabeled htc hn hlb] at hmem; simp at hmem
        | true =>
          cases hres : env.resolve with
          | none => rw [reconcile_eq_of_unresolved htc hn hlb hres] at hmem; simp at hmem
          | some t =>
            cases hdep : ensureBlockingDeploymentExists cfg env node opNs with
            | mk acts1 de =>
              cases de with
              | some e =>
                rw [reconcile_eq_of_depError htc hn hlb hres hdep] at hmem
                exact ⟨node, t, rfl, hlb, rfl,
                  Or.inl (mem_ensureBlockingDeploymentExists (by rw [hdep]; exact hmem))⟩
              | none =>
                cases hpdb : getOrCreatePDB env (buildPDB node opNs) with
                | mk acts2 pr =>
                  cases pr with
                  | error e =>
                    rw [reconcile_eq_of_pdbError htc hn hlb hres hdep hpdb] at hmem
                    rcases List.mem_append.mp hmem with h1 | h2
                    · exact ⟨node, t, rfl, hlb, rfl,
                        Or.inl (mem_ensureBlockingDeploymentExists (by rw [hdep]; exact h1))⟩
                    · exact ⟨node, t, rfl, hlb, rfl,
                        Or.inr (Or.inl (mem_getOrCreatePDB (by rw [hpdb]; exact h2)))⟩
                  | ok cp =>
                    obtain ⟨created, fetched⟩ := cp
                    cases hds : ensureNodeDrainState env t tenantNs
                        (shouldTenantHostBeDrained node) with
                    | mk acts3 dr =>
                      cases dr with
                      | error e =>
                        rw [reconcile_eq_of_drainError htc hn hlb hres hdep hpdb hds] at hmem
                        rcases List.mem_append.mp hmem with h12 | h3
                        · rcases List.mem_append.mp h12 with h1 | h2
                          · exact ⟨node, t, rfl, hlb, rfl,
                              Or.inl (mem_ensureBlockingDeploymentExists
                                (by rw [hdep]; exact h1))⟩
                          · exact ⟨node, t, rfl, hlb, rfl,
                              Or.inr (Or.inl (mem_getOrCreatePDB (by rw [hpdb]; exact h2)))⟩
                        · exact ⟨node, t, rfl, hlb, rfl,
                            Or.inr (Or.inr (Or.inl ⟨by rw [hdep], ⟨(created, fetched), by rw [hpdb]⟩,
                              mem_ensureNodeDrainState (by rw [hds]; exact h3)⟩))⟩
                      | ok b =>
                        cases hens : ensurePDBSpecIsAsExpected env
                            (if created then
                              (setMaxUnavailableIntVal (buildPDB node opNs)
                                (getExpectedMaxUnavailable
                                  (b && shouldTenantHostBeDrained node))).spec
                             else fetched.spec)
                            (setMaxUnavailableIntVal (buildPDB node opNs)
                              (getExpectedMaxUnavailable
                                (b && shouldTenantHostBeDrained node))).spec
                            (buildPDB node opNs).name opNs with
                        | mk acts4 ee =>
                          have hrec : (reconcile cfg env opNs tenantNs).actions =
                              acts1 ++ acts2 ++ acts3 ++ acts4 := by
                            cases ee with
                            | some e =>
                              rw [reconcile_eq_of_ensureError htc hn hlb hres hdep hpdb hds hens]
                            | none =>
                              rw [reconcile_eq_of_success htc hn hlb hres hdep hpdb hds hens]
                          rw [hrec] at hmem
                          rcases List.mem_append.mp hmem with h123 | h4
                          · rcases List.mem_append.mp h123 with h12 | h3
                            · rcases List.mem_append.mp h12 with h1 | h2
                              · exact ⟨node, t, rfl, hlb, rfl,
                                  Or.inl (mem_ensureBlockingDeploymentExists
                                    (by rw [hdep]; exact h1))⟩
                              · exact ⟨node, t, rfl, hlb, rfl,
                                  Or.inr (Or.inl (mem_getOrCreatePDB
                                    (by rw [hpdb]; exact h2)))⟩
                            · exact ⟨node, t, rfl, hlb, rfl,
                                Or.inr (Or.inr (Or.inl ⟨by rw [hdep], ⟨(created, fetched), by rw [hpdb]⟩,
                                  mem_ensureNodeDrainState (by rw [hds]; exact h3)⟩))⟩
                          · exact ⟨node, t, rfl, hlb, rfl,
                              Or.inr (Or.inr (Or.inr ⟨b, by rw [hds],
                                mem_ensurePDBSpecIsAsExpected (by rw [hens]; exact h4)⟩))⟩

theorem reconcile_actions_ordered (cfg : Config) (env : ReconcileEnv)
    (opNs tenantNs : String) :
    ∃ l1 l2 l3, (reconcile cfg env opNs tenantNs).actions = l1 ++ l2 ++ l3 ∧
      (∀ a ∈ l1, a.isEnsureCreate = true) ∧
      (∀ a ∈ l2, a.isNM = true) ∧
      (∀ a ∈ l3, a.isBudgetUpdate = true) := by
  cases htc : ensureTenantClient cfg env with
  | error e =>
    exact ⟨[], [], [], by rw [reconcile_eq_of_tcError htc]; rfl, by simp, by simp, by simp⟩
  | ok bb =>
    cases bb with
    | false =>
      exact ⟨[], [], [], by rw [reconcile_eq_of_notConfigured htc]; rfl, by simp, by simp, by simp⟩
    | true =>
      cases hn : env.nodeGet with
      | error e =>
        exact ⟨[], [], [], by rw [reconcile_eq_of_nodeError htc hn]; rfl, by simp, by simp, by simp⟩
      | ok node =>
        cases hlb : hasDpuLabel node with
        | false =>
          exact ⟨[], [], [], by rw [reconcile_eq_of_unlabeled htc hn hlb]; rfl,
            by simp, by simp, by simp⟩
        | true =>
          cases hres : env.resolve with
          | none =>
            exact ⟨[], [], [], by rw [reconcile_eq_of_unresolved htc hn hlb hres]; rfl,
              by simp, by simp, by simp⟩
          | some t =>
            cases hdep : ensureBlockingDeploymentExists cfg env node opNs with
            | mk acts1 de =>
              have hl1 : ∀ a ∈ acts1, KAction.isEnsureCreate a = true := by
                intro a ha
                have := mem_ensureBlockingDeploymentExists (by rw [hdep]; exact ha)
                rw [this]; rfl
              cases de with
              | some e =>
                exact ⟨acts1, [], [], by rw [reconcile_eq_of_depError htc hn hlb hres hdep]; simp,
                  hl1, by simp, by simp⟩
              | none =>
                cases hpdb : getOrCreatePDB env (buildPDB node opNs) with
                | mk acts2 pr =>
                  have hl12 : ∀ a ∈ acts1 ++ acts2, KAction.isEnsureCreate a = true := by
                    intro a ha
                    rcases List.mem_append.mp ha with h | h
                    · exact hl1 a h
                    · have := mem_getOrCreatePDB (by rw [hpdb]; exact h)
                      rw [this]; rfl
                  cases pr with
                  | error e =>
                    exact ⟨acts1 ++ acts2, [], [],
                      by rw [reconcile_eq_of_pdbError htc hn hlb hres hdep hpdb]; simp,
                      hl12, by simp, by simp⟩
                  | ok cp =>
                    obtain ⟨created, fetched⟩ := cp
                    cases hds : ensureNodeDrainState env t tenantNs
                        (shouldTenantHostBeDrained node) with
                    | mk acts3 dr =>
                      have hl3 : ∀ a ∈ acts3, KAction.isNM a = true := by
                        intro a ha
                        rcases mem_ensureNodeDrainState (by rw [hds]; exact ha) with h | h <;>
                          simp [h, KAction.isNM]
                      cases dr with
                      | error e =>
                        exact ⟨acts1 ++ acts2, acts3, [],
                          by rw [reconcile_eq_of_drainError htc hn hlb hres hdep hpdb hds]; simp,
                          hl12, hl3, by simp⟩
                      | ok b =>
                        cases hens : ensurePDBSpecIsAsExpected env
                            (if created then
                              (setMaxUnavailableIntVal (buildPDB node opNs)
                                (getExpectedMaxUnavailable
                                  (b && shouldTenantHostBeDrained node))).spec
                             else fetched.spec)
                            (setMaxUnavailableIntVal (buildPDB node opNs)
                              (getExpectedMaxUnavailable
                                (b && shouldTenantHostBeDrained node))).spec
                            (buildPDB node opNs).name opNs with
                        | mk acts4 ee =>
                          have hl4 : ∀ a ∈ acts4, KAction.isBudgetUpdate a = true := by
                            intro a ha
                            have := mem_ensurePDBSpecIsAsExpected (by rw [hens]; exact ha)
                            rw [this]; rfl
                          have hrec : (reconcile cfg env opNs tenantNs).actions =
                              acts1 ++ acts2 ++ acts3 ++ acts4 := by
                            cases ee with
                            | some e =>
                              rw [reconcile_eq_of_ensureError htc hn hlb hres hdep hpdb hds hens]
                            | none =>
                              rw [reconcile_eq_of_success htc hn hlb hres hdep hpdb hds hens]
                          exact ⟨acts1 ++ acts2, acts3, acts4, by rw [hrec],
                            hl12, hl3, hl4⟩

/-- C1: across every reconcile, the budget value written is governed by the
drain outcome: any creation of the PodDisruptionBudget carries
`maxUnavailable 0` (the default), and any update carries
`getExpectedMaxUnavailable (actuallyDrained && desiredDrained)` — which is 1
exactly when the remote driver reported the tenant host drained and the
infra node is unschedulable, and 0 in every other case. -/
theorem C1_maxUnavailable_one_only_when_drained (cfg : Config) (env : ReconcileEnv)
    (opNs tenantNs : String) :
    (∀ n2 ns2 s2, KAction.createPDB n2 ns2 s2 ∈ (reconcile cfg env opNs tenantNs).actions →
      s2.maxUnavailable = some ⟨0, maxUnAvailableDefault, ""⟩) ∧
    (∀ n2 ns2 s2, KAction.updatePDB n2 ns2 s2 ∈ (reconcile cfg env opNs tenantNs).actions →
      ∃ node t b, env.nodeGet = .ok node ∧ env.resolve = some t ∧
        (ensureNodeDrainState env t tenantNs (shouldTenantHostBeDrained node)).2 = .ok b ∧
        s2.maxUnavailable =
          some ⟨0, getExpectedMaxUnavailable (b && shouldTenantHostBeDrained node), ""⟩) := by
  constructor
  · intro n2 ns2 s2 hmem
    obtain ⟨node, t, hn, hl, hres, hc⟩ := reconcile_mem_characterization hmem
    rcases hc with h | h | ⟨hd, hp, h | h⟩ | ⟨b, hb, h⟩
    · exact absurd h (by simp)
    · simp only [KAction.createPDB.injEq] at h
      obtain ⟨h1, h2, h3⟩ := h
      rw [h3]
      rfl
    · exact absurd h (by simp)
    · exact absurd h (by simp)
    · exact absurd h (by simp)
  · intro n2 ns2 s2 hmem
    obtain ⟨node, t, hn, hl, hres, hc⟩ := reconcile_mem_characterization hmem
    rcases hc with h | h | ⟨hd, hp, h | h⟩ | ⟨b, hb, h⟩
    · exact absurd h (by simp)
    · exact absurd h (by simp)
    · exact absurd h (by simp)
    · exact absurd h (by simp)
    · simp only [KAction.updatePDB.injEq] at h
      obtain ⟨h1, h2, h3⟩ := h
      exact ⟨node, t, b, hn, hres, hb, by rw [h3]; rfl⟩

/-- Witness for C1 at concrete inputs: the drained scenario issues a budget
update, and the characterization applies to it. -/
theorem C1_maxUnavailable_one_only_when_drained_witness :
    ∃ node t b, envWdrained.nodeGet = .ok node ∧ envWdrained.resolve = some t ∧
      (ensureNodeDrainState envWdrained t "tns" (shouldTenantHostBeDrained node)).2 = .ok b ∧
      ((setMaxUnavailableIntVal (buildPDB nodeW "ns")
          (getExpectedMaxUnavailable (true && shouldTenantHostBeDrained nodeW))).spec).maxUnavailable =
        some ⟨0, getExpectedMaxUnavailable (b && shouldTenantHostBeDrained node), ""⟩ :=
  (C1_maxUnavailable_one_only_when_drained cfgW envWdrained "ns" "tns").2
    (buildPDB nodeW "ns").name "ns"
    (setMaxUnavailableIntVal (buildPDB nodeW "ns")
      (getExpectedMaxUnavailable (true && shouldTenantHostBeDrained nodeW))).spec
    (by decide)

/-- C2: within a single reconcile the two ensure steps (blocking deployment,
budget creation at 0) complete successfully before any remote maintenance
record is created or deleted: every remote-maintenance mutation in the trace
implies both ensures succeeded; if either ensure fails the trace contains no
remote-maintenance mutation; and the trace always decomposes as
ensure-creations, then remote-maintenance mutations, then budget updates. -/
theorem C2_ensure_before_remote_maintenance (cfg : Config) (env : ReconcileEnv)
    (opNs tenantNs : String) :
    (∀ a ∈ (reconcile cfg env opNs tenantNs).actions, a.isNM = true →
      ∃ node, env.nodeGet = .ok node ∧
        (ensureBlockingDeploymentExists cfg env node opNs).2 = none ∧
        ∃ cf, (getOrCreatePDB env (buildPDB node opNs)).2 = .ok cf) ∧
    (∀ node, env.nodeGet = .ok node →
      ((∃ e, (ensureBlockingDeploymentExists cfg env node opNs).2 = some e) ∨
       (∃ e, (getOrCreatePDB env (buildPDB node opNs)).2 = .error e)) →
      ∀ a ∈ (reconcile cfg env opNs tenantNs).actions, a.isNM = false) ∧
    (∃ l1 l2 l3, (reconcile cfg env opNs tenantNs).actions = l1 ++ l2 ++ l3 ∧
      (∀ a ∈ l1, a.isEnsureCreate = true) ∧
      (∀ a ∈ l2, a.isNM = true) ∧
      (∀ a ∈ l3, a.isBudgetUpdate = true)) := by
  refine ⟨?_, ?_, reconcile_actions_ordered cfg env opNs tenantNs⟩
  · intro a ha hnm
    obtain ⟨node, t, hn, hl, hres, hc⟩ := reconcile_mem_characterization ha
    rcases hc with h | h | ⟨hd, hp, h⟩ | ⟨b, hb, h⟩
    · rw [h] at hnm; simp [KAction.isNM] at hnm
    · rw [h] at hnm; simp [KAction.isNM] at hnm
    · exact ⟨node, hn, hd, hp⟩
    · rw [h] at hnm; simp [KAction.isNM] at hnm
  · intro node0 hn0 hfail a ha
    cases hni : a.isNM with
    | false => rfl
    | true =>
      exfalso
      obtain ⟨node, t, hn, hl, hres, hc⟩ := reconcile_mem_characterization ha
      have hnode : node0 = node := by
        rw [hn0] at hn
        exact Except.ok.inj hn
      subst hnode
      rcases hc with h | h | ⟨hd, hp, h⟩ | ⟨b, hb, h⟩
      · rw [h] at hni; simp [KAction.isNM] at hni
      · rw [h] at hni; simp [KAction.isNM] at hni
      · rcases hfail with ⟨e, hfe⟩ | ⟨e, hfe⟩
        · rw [hd] at hfe; simp at hfe
        · obtain ⟨cf, hcf⟩ := hp
          rw [hcf] at hfe; simp at hfe
      · rw [h] at hni; simp [KAction.isNM] at hni

/-- Witness for C2 at concrete inputs: the drain scenario creates the remote
record, so both ensure steps must have succeeded. -/
theorem C2_ensure_before_remote_maintenance_witness :
    ∃ node, envW.nodeGet = .ok node ∧
      (ensureBlockingDeploymentExists cfgW envW node "ns").2 = none ∧
      ∃ cf, (getOrCreatePDB envW (buildPDB node "ns")).2 = .ok cf :=
  (C2_ensure_before_remote_maintenance cfgW envW "ns" "tns").1
    (KAction.createNM "dpu-tenant-w1" "tns" "w1") (by decide) rfl
